import Mathlib

/-
Shallow embedding of src/hw-shell/shell.c, a line-oriented command interpreter.

The tokenizer is external to the repository and is treated as a black box: every
input line enters the model already tokenized, as a List String.  External
program execution is abstracted by a ProgSem record (the bytes a successfully
executed program writes to stdout, and how many stdin bytes it reads) and by an
execOK predicate (which path strings execv executes successfully); everything
else - the scratch-file pipeline plumbing, the PATH search, the builtin
dispatch, the prompt loop and the redirection branches - is translated from the
C source.  Scratch files are modelled as byte lists with an explicit file
offset, because the child and the parent share each open file description
across fork, and ftruncate and lseek manipulate length and offset separately in
the source.
-/

namespace HwShell

/-- shell.c line 21: the pipeline input scratch file name. -/
def INPUT_FILE : String := "./.input"

/-- shell.c line 22: the pipeline output scratch file name. -/
def OUTPUT_FILE : String := "./.output"

/-- POSIX standard input file descriptor number, as used by shell.c. -/
def STDIN_FILENO : Nat := 0

/-- POSIX standard output file descriptor number, as used by shell.c. -/
def STDOUT_FILENO : Nat := 1

/-- One open regular file as seen through an open file description: its byte
contents plus the file offset shared by every descriptor duplicated from it.
Bytes are Nats (0..255 in every use below). -/
structure FileBuf where
  data : List Nat
  pos : Nat
deriving DecidableEq

/-- POSIX write of the given bytes at the current offset: when the offset lies
past the end of the file the gap is filled with zero bytes, bytes under the
write are overwritten, and the offset advances past the written bytes. -/
def FileBuf.writeBytes (f : FileBuf) (bytes : List Nat) : FileBuf :=
  { data := f.data.take f.pos ++ List.replicate (f.pos - f.data.length) 0
      ++ bytes ++ f.data.drop (f.pos + bytes.length),
    pos := f.pos + bytes.length }

/-- ftruncate(fd, 0): empties the file; POSIX leaves the offset unchanged. -/
def FileBuf.truncate0 (f : FileBuf) : FileBuf :=
  { f with data := [] }

/-- lseek(fd, 0, SEEK_SET): rewinds the offset. -/
def FileBuf.lseek0 (f : FileBuf) : FileBuf :=
  { f with pos := 0 }

/-- Reading until end of data (the read loops of shell.c at lines 217 and 227
read 4096-byte chunks until read returns 0; consecutive chunked reads at the
shared advancing offset amount to one read of the whole tail): returns the
bytes from the offset to the end and leaves the offset at the end. -/
def FileBuf.readAll (f : FileBuf) : List Nat × FileBuf :=
  (f.data.drop f.pos, { f with pos := max f.pos f.data.length })

/-- Abstract semantics of successfully executed external programs: run gives
the bytes the program writes to its stdout as a function of its argv and of
the bytes available on its stdin; consumed tells how many of the available
stdin bytes it reads before exiting. -/
structure ProgSem where
  run : List String → List Nat → List Nat
  consumed : List String → List Nat → Nat

/-- execute_program (shell.c lines 123-159) as invoked by the pipeline branch,
with both descriptors bound to scratch files.  The child duplicates the two
descriptors onto its stdin and stdout (lines 128-129), builds argv from tokens
[offset, offset+argc) (lines 131-136) and runs the program; because the open
file descriptions are shared with the parent across fork, the program's reads
advance the input offset (clamped at end of data) and its writes land at, and
advance, the output offset.  The parent waits for the child (line 157). -/
def execute_program_files (sem : ProgSem) (tokens : List String)
    (offset argc : Nat) (inF outF : FileBuf) : FileBuf × FileBuf :=
  let argv := (tokens.drop offset).take argc
  let avail := inF.data.drop inF.pos
  let outBytes := sem.run argv avail
  let k := min (sem.consumed argv avail) avail.length
  ({ inF with pos := inF.pos + k }, outF.writeBytes outBytes)

/-- One iteration of the pipeline loop (shell.c lines 202-221), acting on the
state (slow, input file, output file): scan fast forward from slow to the next
pipe token or the end of the line (lines 204-206), rewind the input file and
run the stage on tokens [slow, fast) (lines 208-210), then truncate the input
file, rewind the output file, copy the output file's bytes into the input file
at the input file's current offset, truncate the output file (lines 214-219),
and step slow past the separator (line 221).  The truncations deliberately do
NOT reset the offsets, exactly as in the source. -/
def pipelineIter (sem : ProgSem) (tokens : List String)
    (s : Nat × FileBuf × FileBuf) : Nat × FileBuf × FileBuf :=
  let slow := s.1
  let fast := slow + ((tokens.drop slow).takeWhile (fun t => !(t == "|"))).length
  let ex := execute_program_files sem tokens slow (fast - slow) s.2.1.lseek0 s.2.2
  let rd := ex.2.lseek0.readAll
  (fast + 1, (ex.1.truncate0).writeBytes rd.1, rd.2.truncate0)

/-- The stage loop of the pipeline branch: the fuel argument is the number of
remaining iterations of the for loop over process_num (shell.c line 202). -/
def pipelineLoop (sem : ProgSem) (tokens : List String) :
    Nat → Nat × FileBuf × FileBuf → Nat × FileBuf × FileBuf
  | 0, s => s
  | i + 1, s => pipelineLoop sem tokens i (pipelineIter sem tokens s)

/-- Observables of one pipeline line (shell.c lines 185-231): the final states
of the two scratch files, the descriptor number the final copy loop writes to
(line 228 passes STDIN_FILENO), and the bytes written there. -/
structure PipelineResult where
  inputFile : FileBuf
  outputFile : FileBuf
  printFd : Nat
  printed : List Nat
deriving DecidableEq

/-- The pipeline branch of main (shell.c lines 185-231): open the two scratch
files and truncate both (lines 188-194, fresh open file descriptions at offset
0), count the pipe tokens to obtain process_num (lines 196-199), run the stage
loop, then rewind the input file and copy its whole contents to descriptor
STDIN_FILENO (lines 224-228), and close both files (line 231). -/
def runPipeline (sem : ProgSem) (tokens : List String) : PipelineResult :=
  let process_num := tokens.count "|" + 1
  let st := pipelineLoop sem tokens process_num
    (0, { data := [], pos := 0 }, { data := [], pos := 0 })
  let rd := st.2.1.lseek0.readAll
  { inputFile := rd.2, outputFile := st.2.2, printFd := STDIN_FILENO,
    printed := rd.1 }

/-- The strtok(pathstr, ":") iteration of shell.c lines 145-146: the maximal
nonempty runs of non-colon characters, in order (strtok skips empty fields). -/
def strtokColon (s : String) : List String :=
  (s.splitOn ":").filter (fun t => !(t == ""))

/-- The PATH prefix loop of execute_program (shell.c lines 145-151): for each
prefix in order, build prefix ++ "/" ++ name (the strcpy/strcat of lines
147-149) and attempt execv, stopping at the first success.  execOK abstracts
which path strings execv executes successfully. -/
def searchPath (execOK : String → Bool) (name : String) :
    List String → Option String
  | [] => none
  | p :: rest =>
    if execOK (p ++ "/" ++ name) then some (p ++ "/" ++ name)
    else searchPath execOK name rest

/-- What the child half of execute_program ends up doing. -/
inductive ChildOutcome where
  | execed (path : String)
  | notFound (message : String) (exitStatus : Nat)
deriving DecidableEq

/-- The child half of execute_program (shell.c lines 126-155): try the command
name directly with execv (line 139); if that fails, walk the PATH prefixes;
if every attempt fails, print "name: command not found" (line 154) and call
exit(0) (line 155).  relative_path is tokens_get_token(tokens, offset), the
command's first token; pathstr is the value of getenv("PATH"). -/
def execute_program_child (execOK : String → Bool)
    (pathstr relative_path : String) : ChildOutcome :=
  if execOK relative_path then ChildOutcome.execed relative_path
  else
    match searchPath execOK relative_path (strtokColon pathstr) with
    | some c => ChildOutcome.execed c
    | none => ChildOutcome.notFound (relative_path ++ ": command not found\n") 0

/-- cmd_table (shell.c lines 52-58): the builtin names, in table order. -/
def cmd_table : List String := ["?", "exit", "cd", "pwd"]

/-- The scan of lookup (shell.c lines 86-90): index of the first table row
whose name matches the command, counting from i. -/
def lookupAux (c : String) : List String → Nat → Int
  | [], _ => -1
  | t :: rest, i => if t = c then (i : Int) else lookupAux c rest (i + 1)

/-- lookup (shell.c lines 86-90); none models the NULL first token of an empty
line, for which the null check on cmd fails at every row, giving -1. -/
def lookup : Option String → Int
  | none => -1
  | some c => lookupAux c cmd_table 0

/-- Result of a builtin handler: the working directory afterwards, the
messages the handler itself printed, and its return value. -/
structure CmdResult where
  cwd : String
  messages : List String
  ret : Int
deriving DecidableEq

/-- cmd_cd (shell.c lines 71-75): chdir(tokens_get_token(tokens, 1)) with the
result ignored, then return 1.  chdirFn abstracts chdir: from the current
directory and the argument it yields the directory moved to, or none when the
call fails; the absent (NULL) argument of a bare cd line also just fails.  In
every case nothing is printed. -/
def cmd_cd (chdirFn : String → String → Option String) (cwd : String)
    (tokens : List String) : CmdResult :=
  match tokens[1]? with
  | none => { cwd := cwd, messages := [], ret := 1 }
  | some path =>
    match chdirFn cwd path with
    | none => { cwd := cwd, messages := [], ret := 1 }
    | some c => { cwd := c, messages := [], ret := 1 }

/-- The interactive prompt text of shell.c lines 168 and 253: "%d: ". -/
def promptStr (n : Nat) : String := toString n ++ ": "

/-- Loop-level observables of main: the prompts printed, the number of lines
processed, the exit status when the process terminated through the exit
builtin (none when the loop ran to end of input), and the final working
directory. -/
structure LoopResult where
  prompts : List String
  processed : Nat
  exitStatus : Option Nat
  finalCwd : String
deriving DecidableEq

/-- The body of main's read-eval loop (shell.c lines 170-257) over the already
tokenized lines read from standard input.  Builtins are dispatched through
lookup (line 175): cmd_exit (table index 1) calls exit(0) at once (line 68), so
neither the post-line prompt of line 253 nor any later line is reached;
cmd_cd (index 2) may move the working directory; cmd_help and cmd_pwd (indices
0 and 3) only print.  A non-builtin line forks, runs and waits (see the branch
models below) and never stops the loop.  After each completed line the prompt
with the incremented line number is printed when interactive (lines 251-253). -/
def runLoop (interactive : Bool) (chdirFn : String → String → Option String) :
    Nat → String → List (List String) → LoopResult
  | _, cwd, [] =>
    { prompts := [], processed := 0, exitStatus := none, finalCwd := cwd }
  | n, cwd, tokens :: rest =>
    let fundex := lookup tokens[0]?
    if fundex = 1 then
      { prompts := [], processed := 1, exitStatus := some 0, finalCwd := cwd }
    else
      let cwd2 := if fundex = 2 then (cmd_cd chdirFn cwd tokens).cwd else cwd
      let r := runLoop interactive chdirFn (n + 1) cwd2 rest
      { prompts := (if interactive then [promptStr (n + 1)] else []) ++ r.prompts,
        processed := r.processed + 1,
        exitStatus := r.exitStatus,
        finalCwd := r.finalCwd }

/-- main (shell.c lines 161-259): print the prompt "0: " when standard input
is a terminal (line 168), then run the read-eval loop from line number 0. -/
def shellMain (interactive : Bool) (chdirFn : String → String → Option String)
    (cwd0 : String) (lines : List (List String)) : LoopResult :=
  let r := runLoop interactive chdirFn 0 cwd0 lines
  { r with prompts := (if interactive then [promptStr 0] else []) ++ r.prompts }

/-- Which external branch of main a non-builtin line takes (shell.c lines
185-248), together with the data the branch extracts.  The is_contains_word
checks are made in source order: pipe first, then output redirection, then
input redirection; both redirection branches take the final token as the file
name and tokens [0, command_argc - 2) as the command (lines 234-236, 240-243). -/
inductive ExtAction where
  | pipe
  | redirOut (filename : String) (cmdTokens : List String)
  | redirIn (filename : String) (cmdTokens : List String)
  | plain (cmdTokens : List String)
deriving DecidableEq

/-- The branch selection of shell.c lines 185, 232, 238 and 245. -/
def dispatchExternal (tokens : List String) : ExtAction :=
  let command_argc := tokens.length
  if tokens.contains "|" then ExtAction.pipe
  else if tokens.contains ">" then
    ExtAction.redirOut ((tokens[command_argc - 1]?).getD "")
      (tokens.take (command_argc - 2))
  else if tokens.contains "<" then
    ExtAction.redirIn ((tokens[command_argc - 1]?).getD "")
      (tokens.take (command_argc - 2))
  else ExtAction.plain tokens

/-- Observables of the output-redirection branch (shell.c lines 232-237). -/
structure RedirOutResult where
  filename : String
  childArgv : List String
  childStdinFd : Nat
  fileContentsAfter : List Nat
  closed : Bool
deriving DecidableEq

/-- The output-redirection branch (shell.c lines 232-237): open(filename,
O_CREAT | O_WRONLY) - creating the file when missing but NOT truncating an
existing one, offset 0 - then execute_program(tokens, 0, command_argc - 2,
STDIN_FILENO, filedes), then close(filedes).  fs maps file names to contents
(none: no such file); shellStdin is what the interpreter's own standard input
offers the child. -/
def runRedirOut (sem : ProgSem) (fs : String → Option (List Nat))
    (shellStdin : List Nat) (tokens : List String) : RedirOutResult :=
  let command_argc := tokens.length
  let filename := (tokens[command_argc - 1]?).getD ""
  let f : FileBuf := { data := (fs filename).getD [], pos := 0 }
  let argv := tokens.take (command_argc - 2)
  let f2 := f.writeBytes (sem.run argv shellStdin)
  { filename := filename, childArgv := argv, childStdinFd := STDIN_FILENO,
    fileContentsAfter := f2.data, closed := true }

/-- Observables of the input-redirection branch (shell.c lines 238-244). -/
structure RedirInResult where
  filename : String
  childArgv : List String
  childStdinBytes : List Nat
  childOutput : List Nat
  childStdoutFd : Nat
  shellStdinAfter : Option String
  closed : Bool
deriving DecidableEq

/-- The input-redirection branch (shell.c lines 238-244): open(filename,
O_RDONLY), then dup2(filedes, STDIN_FILENO) executed in the PARENT - rebinding
the interpreter's own standard input to the file, process-wide - then
execute_program(tokens, 0, command_argc - 2, filedes, STDOUT_FILENO), then
close(filedes).  Descriptor 0 still refers to the file afterwards, which
shellStdinAfter records. -/
def runRedirIn (sem : ProgSem) (fs : String → Option (List Nat))
    (tokens : List String) : RedirInResult :=
  let command_argc := tokens.length
  let filename := (tokens[command_argc - 1]?).getD ""
  let contents := (fs filename).getD []
  let argv := tokens.take (command_argc - 2)
  { filename := filename, childArgv := argv, childStdinBytes := contents,
    childOutput := sem.run argv contents, childStdoutFd := STDOUT_FILENO,
    shellStdinAfter := some filename, closed := true }

/-- Program semantics for the spec's example pipeline: echo writes the four
bytes of "abc\n" and reads nothing; any other program behaves like
tr a-z A-Z, uppercasing and fully consuming its input. -/
def semEchoTr : ProgSem where
  run := fun argv input =>
    if argv[0]? = some "echo" then [97, 98, 99, 10]
    else input.map (fun b => if 97 ≤ b ∧ b ≤ 122 then b - 32 else b)
  consumed := fun argv input => if argv[0]? = some "echo" then 0 else input.length

/-- The spec's example pipeline line, tokenized. -/
def pipeTokens : List String := ["echo", "abc", "|", "tr", "a-z", "A-Z"]

/-- No path executes successfully. -/
def execOKnone : String → Bool := fun _ => false

/-- Exactly the path /bin/ls executes successfully. -/
def execOKbin : String → Bool := fun s => s == "/bin/ls"

/-- chdir always fails. -/
def chdirNone : String → String → Option String := fun _ _ => none

/-- chdir always succeeds, moving to the named directory. -/
def chdirTo : String → String → Option String := fun _ p => some p

/-- A file system holding one file "in.txt" with the bytes of "hi\n". -/
def fsIn : String → Option (List Nat) :=
  fun n => if n = "in.txt" then some [104, 105, 10] else none

/-- A file system holding one file "f" with five bytes. -/
def fsF : String → Option (List Nat) :=
  fun n => if n = "f" then some [1, 2, 3, 4, 5] else none

/-- A program that writes two bytes and reads nothing. -/
def semTwo : ProgSem where
  run := fun _ _ => [9, 9]
  consumed := fun _ _ => 0

/-- A write at offset 0 overwrites the start of the file and keeps whatever
prior contents extend beyond the written bytes. -/
theorem writeBytes_pos_zero (d bytes : List Nat) :
    FileBuf.writeBytes { data := d, pos := 0 } bytes
      = { data := bytes ++ d.drop bytes.length, pos := bytes.length } := by
  simp [FileBuf.writeBytes]

/-- The PATH prefix loop returns the first candidate, in list order, that
executes successfully: it agrees with find? over the candidate list. -/
theorem searchPath_eq_find (execOK : String → Bool) (name : String) :
    ∀ l : List String,
      searchPath execOK name l = (l.map (fun p => p ++ "/" ++ name)).find? execOK
  | [] => rfl
  | p :: rest => by
    cases hx : execOK (p ++ "/" ++ name) <;>
      simp [searchPath, List.find?_cons, hx, searchPath_eq_find execOK name rest]

/-- Every iteration of the pipeline loop ends by truncating the output scratch
file, so after at least one iteration its contents are empty. -/
theorem pipelineLoop_outFile_nil (sem : ProgSem) (tokens : List String) :
    ∀ (i : Nat) (s : Nat × FileBuf × FileBuf), 1 ≤ i →
      ((pipelineLoop sem tokens i s).2.2).data = []
  | 0, _, h => absurd h (by omega)
  | 1, s, _ => rfl
  | i + 2, s, _ =>
    pipelineLoop_outFile_nil sem tokens (i + 1) (pipelineIter sem tokens s)
      (by omega)

/-- The builtin table lookup yields index 1 exactly for the name "exit". -/
theorem lookup_eq_one_iff (o : Option String) : lookup o = 1 ↔ o = some "exit" := by
  match o with
  | none => simp [lookup]
  | some c =>
    simp only [lookup, cmd_table, lookupAux, Option.some.injEq]
    by_cases h1 : "?" = c
    · subst h1
      decide
    · rw [if_neg h1]
      by_cases h2 : "exit" = c
      · subst h2
        decide
      · rw [if_neg h2]
        by_cases h3 : "cd" = c
        · subst h3
          decide
        · rw [if_neg h3]
          by_cases h4 : "pwd" = c
          · subst h4
            decide
          · rw [if_neg h4]
            exact iff_of_false (by decide) (fun hc => h2 hc.symm)

/-- Claim C1 as stated is false on the code: for the pipeline line
"echo abc | tr a-z A-Z" the final copy loop of the pipeline branch writes the
relocated result to descriptor STDIN_FILENO (shell.c line 228), which is not
the interpreter's standard output descriptor. -/
theorem claim1_counterexample :
    (runPipeline semEchoTr pipeTokens).printFd = STDIN_FILENO ∧
    (runPipeline semEchoTr pipeTokens).printFd ≠ STDOUT_FILENO := by
  constructor <;> decide

/-- Claim C1, amended: for every pipeline line (a tokenized line containing a
pipe token), after the last stage completes, the final contents of the input
scratch buffer - the last stage's output, relocated there by the per-stage
copy step - are the bytes the pipeline emits as its visible result, and they
are written to the interpreter's own standard input descriptor (fd 0), not to
its standard output stream. -/
theorem claim1_amended (sem : ProgSem) (tokens : List String)
    (_h : tokens.contains "|" = true) :
    (runPipeline sem tokens).printFd = STDIN_FILENO ∧
    (runPipeline sem tokens).printed = (runPipeline sem tokens).inputFile.data :=
  ⟨rfl, rfl⟩

/-- Witness for claim C1 (amended) at the spec's example pipeline. -/
theorem claim1_amended_witness :
    pipeTokens.contains "|" = true ∧
    (runPipeline semEchoTr pipeTokens).printFd = STDIN_FILENO :=
  ⟨by decide, (claim1_amended semEchoTr pipeTokens (by decide)).1⟩

/-- Claim C2 as stated is false on the code: after the pipeline
"echo abc | tr a-z A-Z" completes, the output scratch file is indeed empty but
the input scratch file is NOT - the loop truncates the input file only before
refilling it (shell.c line 214), never after the final copy, so it still holds
the relocated final output when both files are closed. -/
theorem claim2_counterexample :
    (runPipeline semEchoTr pipeTokens).outputFile.data = [] ∧
    (runPipeline semEchoTr pipeTokens).inputFile.data ≠ [] := by
  constructor <;> decide

/-- Claim C2, amended: for every pipeline line, after the whole pipeline
completes (final result already emitted), the output scratch buffer is empty
(truncated to length zero), while the input scratch buffer is not truncated:
it still holds the final stage's relocated output, the very bytes emitted as
the pipeline's result. -/
theorem claim2_amended (sem : ProgSem) (tokens : List String)
    (_h : tokens.contains "|" = true) :
    (runPipeline sem tokens).outputFile.data = [] ∧
    (runPipeline sem tokens).inputFile.data = (runPipeline sem tokens).printed :=
  ⟨pipelineLoop_outFile_nil sem tokens (tokens.count "|" + 1) _ (by omega), rfl⟩

/-- Witness for claim C2 (amended) at the spec's example pipeline. -/
theorem claim2_amended_witness :
    pipeTokens.contains "|" = true ∧
    (runPipeline semEchoTr pipeTokens).outputFile.data = [] :=
  ⟨by decide, (claim2_amended semEchoTr pipeTokens (by decide)).1⟩

/-- Claim C3: for every launched command whose name does not execute directly
as a path, the child consults PATH, splits it on ":" (strtok semantics), and
attempts execution against each directory prefix left to right with "/" and
the command name appended, stopping at the first prefix whose execution
succeeds: the outcome is determined by the FIRST successful candidate in PATH
order (find? over the candidate list), and only when no candidate succeeds
does the child fall through to the not-found path. -/
theorem claim3_path_search (execOK : String → Bool) (pathstr name : String)
    (h : execOK name = false) :
    execute_program_child execOK pathstr name
      = match ((strtokColon pathstr).map (fun p => p ++ "/" ++ name)).find?
          execOK with
        | some c => ChildOutcome.execed c
        | none => ChildOutcome.notFound (name ++ ": command not found\n") 0 := by
  simp [execute_program_child, h, searchPath_eq_find]

/-- Witness for claim C3: a PATH with two prefixes where only the second
candidate, /bin/ls, executes. -/
theorem claim3_witness :
    execOKbin "ls" = false ∧
    execute_program_child execOKbin "/usr/bin:/bin" "ls"
      = match ((strtokColon "/usr/bin:/bin").map (fun p => p ++ "/" ++ "ls")).find?
          execOKbin with
        | some c => ChildOutcome.execed c
        | none => ChildOutcome.notFound ("ls" ++ ": command not found\n") 0 :=
  ⟨by decide, claim3_path_search execOKbin "/usr/bin:/bin" "ls" (by decide)⟩

/-- Claim C4: when direct execution fails and every PATH prefix fails, the
child prints exactly "name: command not found" (with name the command's first
token) and exits with status 0, and the read-eval loop goes on to the next
input line: the loop outcome on the remaining lines is unchanged, with the
failing line merely counted as processed. -/
theorem claim4_not_found (execOK : String → Bool) (pathstr name : String)
    (h1 : execOK name = false)
    (h2 : ∀ p ∈ strtokColon pathstr, execOK (p ++ "/" ++ name) = false) :
    execute_program_child execOK pathstr name
      = ChildOutcome.notFound (name ++ ": command not found\n") 0 ∧
    ∀ (interactive : Bool) (chdirFn : String → String → Option String)
      (n : Nat) (cwd : String) (tokens : List String)
      (rest : List (List String)),
      tokens[0]? = some name → lookup (some name) = -1 →
      (runLoop interactive chdirFn n cwd (tokens :: rest)).processed
        = (runLoop interactive chdirFn (n + 1) cwd rest).processed + 1 ∧
      (runLoop interactive chdirFn n cwd (tokens :: rest)).exitStatus
        = (runLoop interactive chdirFn (n + 1) cwd rest).exitStatus := by
  constructor
  · have hs : searchPath execOK name (strtokColon pathstr) = none := by
      rw [searchPath_eq_find, List.find?_eq_none]
      intro x hx
      obtain ⟨q, hq, rfl⟩ := List.mem_map.mp hx
      simp [h2 q hq]
    simp [execute_program_child, h1, hs]
  · intro interactive chdirFn n cwd tokens rest htok hlook
    have hne : ¬ lookup tokens[0]? = 1 := by rw [htok, hlook]; decide
    have hne2 : ¬ lookup tokens[0]? = 2 := by rw [htok, hlook]; decide
    constructor <;> simp [runLoop, hne, hne2]

/-- Witness for claim C4: no path executes at all, with a two-line input whose
first line is the unknown command. -/
theorem claim4_witness :
    execOKnone "nosuch" = false ∧
    execute_program_child execOKnone "/bin:/usr/bin" "nosuch"
      = ChildOutcome.notFound ("nosuch" ++ ": command not found\n") 0 ∧
    (runLoop true chdirNone 0 "/" [["nosuch"], ["pwd"]]).processed
      = (runLoop true chdirNone 1 "/" [["pwd"]]).processed + 1 := by
  have h := claim4_not_found execOKnone "/bin:/usr/bin" "nosuch" rfl
    (fun p _ => rfl)
  exact ⟨rfl, h.1,
    (h.2 true chdirNone 0 "/" ["nosuch"] [["pwd"]] rfl (by decide)).1⟩

/-- Claim C5: for every non-piped line containing ">", the dispatcher takes
the output-redirection branch with the final token as file name and tokens
[0, count-2) as the command; the branch opens that file for writing (creating
it when missing, prior contents kept at offset 0), runs the command with the
interpreter's own standard input and with standard output bound to the file -
so the command's output lands at the start of the file - and closes it. -/
theorem claim5_redirect_out (sem : ProgSem) (fs : String → Option (List Nat))
    (shellStdin : List Nat) (tokens : List String)
    (h1 : tokens.contains "|" = false) (h2 : tokens.contains ">" = true)
    (_h3 : 2 ≤ tokens.length) :
    dispatchExternal tokens
      = ExtAction.redirOut ((tokens[tokens.length - 1]?).getD "")
          (tokens.take (tokens.length - 2)) ∧
    (runRedirOut sem fs shellStdin tokens).filename
      = (tokens[tokens.length - 1]?).getD "" ∧
    (runRedirOut sem fs shellStdin tokens).childArgv
      = tokens.take (tokens.length - 2) ∧
    (runRedirOut sem fs shellStdin tokens).childStdinFd = STDIN_FILENO ∧
    (runRedirOut sem fs shellStdin tokens).fileContentsAfter
      = sem.run (tokens.take (tokens.length - 2)) shellStdin
        ++ ((fs ((tokens[tokens.length - 1]?).getD "")).getD []).drop
            (sem.run (tokens.take (tokens.length - 2)) shellStdin).length ∧
    (runRedirOut sem fs shellStdin tokens).closed = true := by
  have m1 : ¬ ("|" ∈ tokens) := by simpa using h1
  have m2 : ">" ∈ tokens := by simpa using h2
  refine ⟨by simp [dispatchExternal, m1, m2], rfl, rfl, rfl, ?_, rfl⟩
  simp [runRedirOut, writeBytes_pos_zero]

/-- Witness for claim C5 at the line "echo hi > out.txt". -/
theorem claim5_witness :
    (["echo", "hi", ">", "out.txt"] : List String).contains "|" = false ∧
    (["echo", "hi", ">", "out.txt"] : List String).contains ">" = true ∧
    2 ≤ (["echo", "hi", ">", "out.txt"] : List String).length ∧
    dispatchExternal ["echo", "hi", ">", "out.txt"]
      = ExtAction.redirOut "out.txt" ["echo", "hi"] := by
  have h := claim5_redirect_out semTwo fsIn [] ["echo", "hi", ">", "out.txt"]
    (by decide) (by decide) (by decide)
  exact ⟨by decide, by decide, by decide, h.1⟩

/-- Claim C6 as stated is false on the code: the line "cat < in.txt > out.txt"
is non-piped and contains "<", yet the interpreter takes the output-redirection
branch (shell.c checks ">" at line 232 before "<" at line 238), opening the
final token "out.txt" for writing rather than read-only, and never touching
the interpreter's standard input. -/
theorem claim6_counterexample :
    dispatchExternal ["cat", "<", "in.txt", ">", "out.txt"]
      = ExtAction.redirOut "out.txt" ["cat", "<", "in.txt"] ∧
    dispatchExternal ["cat", "<", "in.txt", ">", "out.txt"]
      ≠ ExtAction.redirIn "out.txt" ["cat", "<", "in.txt"] := by
  constructor <;> decide

/-- Claim C6, amended: for every non-piped line containing "<" and not
containing ">", the interpreter opens the file named by the final token
read-only and duplicates it onto its own standard input descriptor before
launching - mutating the interpreter's stdin process-wide, not only the
child's - runs tokens [0, count-2) with that input and the interpreter's
standard output, then closes the descriptor. -/
theorem claim6_redirect_in (sem : ProgSem) (fs : String → Option (List Nat))
    (tokens : List String) (contents : List Nat)
    (h1 : tokens.contains "|" = false) (h2 : tokens.contains ">" = false)
    (h3 : tokens.contains "<" = true) (_h4 : 2 ≤ tokens.length)
    (h5 : fs ((tokens[tokens.length - 1]?).getD "") = some contents) :
    dispatchExternal tokens
      = ExtAction.redirIn ((tokens[tokens.length - 1]?).getD "")
          (tokens.take (tokens.length - 2)) ∧
    (runRedirIn sem fs tokens).filename = (tokens[tokens.length - 1]?).getD "" ∧
    (runRedirIn sem fs tokens).childArgv = tokens.take (tokens.length - 2) ∧
    (runRedirIn sem fs tokens).childStdinBytes = contents ∧
    (runRedirIn sem fs tokens).childOutput
      = sem.run (tokens.take (tokens.length - 2)) contents ∧
    (runRedirIn sem fs tokens).childStdoutFd = STDOUT_FILENO ∧
    (runRedirIn sem fs tokens).shellStdinAfter
      = some ((tokens[tokens.length - 1]?).getD "") ∧
    (runRedirIn sem fs tokens).closed = true := by
  have m1 : ¬ ("|" ∈ tokens) := by simpa using h1
  have m2 : ¬ (">" ∈ tokens) := by simpa using h2
  have m3 : "<" ∈ tokens := by simpa using h3
  refine ⟨by simp [dispatchExternal, m1, m2, m3], rfl, rfl, ?_, ?_, rfl, rfl, rfl⟩
  · simp [runRedirIn, h5]
  · simp [runRedirIn, h5]

/-- Witness for claim C6 (amended) at the line "cat < in.txt". -/
theorem claim6_amended_witness :
    (["cat", "<", "in.txt"] : List String).contains "|" = false ∧
    (["cat", "<", "in.txt"] : List String).contains ">" = false ∧
    (["cat", "<", "in.txt"] : List String).contains "<" = true ∧
    fsIn "in.txt" = some [104, 105, 10] ∧
    dispatchExternal ["cat", "<", "in.txt"]
      = ExtAction.redirIn "in.txt" ["cat"] := by
  have h := claim6_redirect_in semTwo fsIn ["cat", "<", "in.txt"]
    [104, 105, 10] (by decide) (by decide) (by decide) (by decide) (by decide)
  exact ⟨by decide, by decide, by decide, by decide, h.1⟩

/-- Claim C8: a line whose first token is "cd" dispatches to cmd_cd (table
index 2), which prints nothing, always reports the command as handled
(returns 1), and moves the working directory to the result of chdir on the
token at index 1 - keeping the old directory, silently, when the argument is
absent or chdir fails. -/
theorem claim8_cd (chdirFn : String → String → Option String) (cwd : String)
    (tokens : List String) (h : tokens[0]? = some "cd") :
    lookup tokens[0]? = 2 ∧
    (cmd_cd chdirFn cwd tokens).messages = [] ∧
    (cmd_cd chdirFn cwd tokens).ret = 1 ∧
    (cmd_cd chdirFn cwd tokens).cwd
      = (match tokens[1]? with
         | none => cwd
         | some p => (chdirFn cwd p).getD cwd) := by
  refine ⟨by rw [h]; decide, ?_⟩
  cases h1 : tokens[1]? with
  | none => simp [cmd_cd, h1]
  | some p => cases h2 : chdirFn cwd p <;> simp [cmd_cd, h1, h2]

/-- Witness for claim C8 at the line "cd tmp" with a succeeding chdir. -/
theorem claim8_witness :
    (["cd", "tmp"] : List String)[0]? = some "cd" ∧
    (cmd_cd chdirTo "/" ["cd", "tmp"]).messages = [] ∧
    (cmd_cd chdirTo "/" ["cd", "tmp"]).cwd = "tmp" := by
  have h := claim8_cd chdirTo "/" ["cd", "tmp"] rfl
  refine ⟨rfl, h.2.1, ?_⟩
  have h4 := h.2.2.2
  simpa [chdirTo] using h4

/-- Claim C10: since the output-redirection branch opens the target with
O_CREAT | O_WRONLY and no O_TRUNC, an existing file keeps its prior contents:
the command's output overwrites only the file's first bytes, and when the
output is shorter than the prior contents the prior bytes beyond the output
remain unchanged and the file length does not shrink. -/
theorem claim10_no_truncate (sem : ProgSem) (fs : String → Option (List Nat))
    (shellStdin : List Nat) (tokens : List String) (prior : List Nat)
    (hfile : fs ((tokens[tokens.length - 1]?).getD "") = some prior)
    (hlen : (sem.run (tokens.take (tokens.length - 2)) shellStdin).length
      ≤ prior.length) :
    (runRedirOut sem fs shellStdin tokens).fileContentsAfter
      = sem.run (tokens.take (tokens.length - 2)) shellStdin
        ++ prior.drop
            (sem.run (tokens.take (tokens.length - 2)) shellStdin).length ∧
    (runRedirOut sem fs shellStdin tokens).fileContentsAfter.length
      = prior.length ∧
    (runRedirOut sem fs shellStdin tokens).fileContentsAfter.drop
        (sem.run (tokens.take (tokens.length - 2)) shellStdin).length
      = prior.drop
          (sem.run (tokens.take (tokens.length - 2)) shellStdin).length := by
  have he : (runRedirOut sem fs shellStdin tokens).fileContentsAfter
      = sem.run (tokens.take (tokens.length - 2)) shellStdin
        ++ prior.drop
            (sem.run (tokens.take (tokens.length - 2)) shellStdin).length := by
    simp [runRedirOut, writeBytes_pos_zero, hfile]
  refine ⟨he, ?_, ?_⟩
  · rw [he]
    simp only [List.length_append, List.length_drop]
    omega
  · rw [he]
    exact List.drop_left
      (sem.run (tokens.take (tokens.length - 2)) shellStdin)
      (prior.drop (sem.run (tokens.take (tokens.length - 2)) shellStdin).length)

/-- Witness for claim C10: a two-byte output over a five-byte prior file, via
the line "w > f": the last three prior bytes survive. -/
theorem claim10_witness :
    fsF "f" = some [1, 2, 3, 4, 5] ∧
    (semTwo.run ((["w", ">", "f"] : List String).take 1) []).length ≤ 5 ∧
    (runRedirOut semTwo fsF [] ["w", ">", "f"]).fileContentsAfter
      = [9, 9, 3, 4, 5] := by
  have h := claim10_no_truncate semTwo fsF [] ["w", ">", "f"] [1, 2, 3, 4, 5]
    (by decide) (by decide)
  refine ⟨by decide, by decide, ?_⟩
  rw [h.1]
  decide

/-- Unfolding step of range' used to peel one prompt off the front. -/
theorem range'_cons_eq (s k : Nat) :
    List.range' s (k + 1) = s :: List.range' (s + 1) k := rfl

/-- When standard input is not a terminal, the loop prints no prompt at all. -/
theorem runLoop_prompts_noninteractive (f : String → String → Option String) :
    ∀ (lines : List (List String)) (n : Nat) (cwd : String),
      (runLoop false f n cwd lines).prompts = []
  | [], _, _ => rfl
  | tokens :: rest, n, cwd => by
    by_cases h : lookup tokens[0]? = 1
    · simp [runLoop, h]
    · simp [runLoop, h, runLoop_prompts_noninteractive f rest (n + 1)]

/-- Interactive prompt bookkeeping of the loop started at line number n: when
the loop runs to end of input it prints the prompts n+1, ..., n+len once after
each of its len processed lines; when it is cut short by the exit builtin it
prints one prompt per completed line, that is processed - 1 of them. -/
theorem runLoop_prompts_interactive (f : String → String → Option String) :
    ∀ (lines : List (List String)) (n : Nat) (cwd : String),
      ((runLoop true f n cwd lines).exitStatus = none →
        (runLoop true f n cwd lines).prompts
          = (List.range' (n + 1) lines.length).map promptStr ∧
        (runLoop true f n cwd lines).processed = lines.length) ∧
      ((runLoop true f n cwd lines).exitStatus.isSome = true →
        (runLoop true f n cwd lines).prompts
          = (List.range' (n + 1)
              ((runLoop true f n cwd lines).processed - 1)).map promptStr ∧
        1 ≤ (runLoop true f n cwd lines).processed)
  | [], n, cwd => by
    constructor
    · intro _
      exact ⟨rfl, rfl⟩
    · intro h
      simp [runLoop] at h
  | tokens :: rest, n, cwd => by
    by_cases h : lookup tokens[0]? = 1
    · constructor
      · intro hn
        exact absurd hn (by simp [runLoop, h])
      · intro _
        refine ⟨?_, by simp [runLoop, h]⟩
        simp [runLoop, h]
    · have ih := runLoop_prompts_interactive f rest (n + 1)
        (if lookup tokens[0]? = 2 then (cmd_cd f cwd tokens).cwd else cwd)
      constructor
      · intro hn
        have hn2 : (runLoop true f (n + 1)
            (if lookup tokens[0]? = 2 then (cmd_cd f cwd tokens).cwd else cwd)
            rest).exitStatus = none := by
          simpa [runLoop, h] using hn
        obtain ⟨hp, hc⟩ := ih.1 hn2
        constructor
        · simp [runLoop, h, hp, range'_cons_eq]
        · simp [runLoop, h, hc]
      · intro hs
        have hs2 : (runLoop true f (n + 1)
            (if lookup tokens[0]? = 2 then (cmd_cd f cwd tokens).cwd else cwd)
            rest).exitStatus.isSome = true := by
          simpa [runLoop, h] using hs
        obtain ⟨hp, hc⟩ := ih.2 hs2
        constructor
        · have hp1 : (runLoop true f (n + 1)
              (if lookup tokens[0]? = 2 then (cmd_cd f cwd tokens).cwd else cwd)
              rest).processed - 1 + 1
              = (runLoop true f (n + 1)
                  (if lookup tokens[0]? = 2 then (cmd_cd f cwd tokens).cwd
                   else cwd) rest).processed := by omega
          simp only [runLoop, if_neg h]
          simp only [hp, Nat.add_sub_cancel]
          rw [← hp1, range'_cons_eq]
          simp
        · simp [runLoop, h]

/-- Claim C7: in interactive mode the prompt "n: " is printed once before
each read - "0: " before the first line, then after each processed line the
prompt with the incremented count - so a run to end of input over len lines
prints exactly the prompts 0, ..., len, and a run cut short by the exit
builtin prints the prompts 0, ..., processed-1, one per line read; in
non-interactive mode no prompt text is ever emitted. -/
theorem claim7_prompts (chdirFn : String → String → Option String)
    (cwd0 : String) (lines : List (List String)) :
    ((shellMain true chdirFn cwd0 lines).exitStatus = none →
      (shellMain true chdirFn cwd0 lines).prompts
        = (List.range (lines.length + 1)).map promptStr ∧
      (shellMain true chdirFn cwd0 lines).processed = lines.length) ∧
    ((shellMain true chdirFn cwd0 lines).exitStatus.isSome = true →
      (shellMain true chdirFn cwd0 lines).prompts
        = (List.range ((shellMain true chdirFn cwd0 lines).processed)).map
            promptStr) ∧
    (shellMain false chdirFn cwd0 lines).prompts = [] := by
  have hmain := runLoop_prompts_interactive chdirFn lines 0 cwd0
  refine ⟨?_, ?_, ?_⟩
  · intro hn
    obtain ⟨hp, hc⟩ := hmain.1 (by simpa [shellMain] using hn)
    constructor
    · rw [List.range_eq_range', range'_cons_eq]
      simp [shellMain, hp]
    · simpa [shellMain] using hc
  · intro hs
    obtain ⟨hp, hc⟩ := hmain.2 (by simpa [shellMain] using hs)
    have hmp : (shellMain true chdirFn cwd0 lines).processed
        = (runLoop true chdirFn 0 cwd0 lines).processed := rfl
    rw [hmp, ← Nat.sub_add_cancel hc, List.range_eq_range', range'_cons_eq]
    simp [shellMain, hp]
  · simp [shellMain, runLoop_prompts_noninteractive chdirFn lines 0 cwd0]

/-- Witness for claim C7: the single line "pwd", interactive and not. -/
theorem claim7_witness :
    (shellMain true chdirNone "/" [["pwd"]]).exitStatus = none ∧
    (shellMain true chdirNone "/" [["pwd"]]).prompts
      = (List.range 2).map promptStr ∧
    (shellMain false chdirNone "/" [["pwd"]]).prompts = [] := by
  have h := claim7_prompts chdirNone "/" [["pwd"]]
  exact ⟨by decide, (h.1 (by decide)).1, h.2.2⟩

/-- A prefix of lines none of which dispatches to the exit builtin does not
stop the loop; the first exit line then terminates it with status 0, counts
as the last processed line, and makes everything after it irrelevant. -/
theorem runLoop_exit_append (interactive : Bool)
    (f : String → String → Option String) (tokens : List String)
    (post post2 : List (List String)) (hexit : lookup tokens[0]? = 1) :
    ∀ (pre : List (List String)) (n : Nat) (cwd : String),
      (∀ l ∈ pre, lookup l[0]? ≠ 1) →
      (runLoop interactive f n cwd (pre ++ tokens :: post)).exitStatus
        = some 0 ∧
      (runLoop interactive f n cwd (pre ++ tokens :: post)).processed
        = pre.length + 1 ∧
      runLoop interactive f n cwd (pre ++ tokens :: post)
        = runLoop interactive f n cwd (pre ++ tokens :: post2)
  | [], n, cwd, _ => by
    refine ⟨?_, ?_, ?_⟩ <;> simp [runLoop, hexit]
  | l :: pre, n, cwd, hpre => by
    have hl : ¬ lookup l[0]? = 1 := hpre l (List.mem_cons_self l pre)
    have ih := runLoop_exit_append interactive f tokens post post2 hexit pre
      (n + 1) (if lookup l[0]? = 2 then (cmd_cd f cwd l).cwd else cwd)
      (fun x hx => hpre x (List.mem_cons_of_mem l hx))
    refine ⟨?_, ?_, ?_⟩
    · simpa [runLoop, hl] using ih.1
    · have := ih.2.1
      simp only [List.cons_append, runLoop, if_neg hl]
      simp [this]
    · simp only [List.cons_append, runLoop, if_neg hl, List.append_eq]
      rw [ih.2.2]

/-- Claim C9: a line whose first token is "exit" terminates the interpreter
at once with success status 0; the exit line is the last line processed, no
further prompt is printed, and the observable outcome is independent of any
remaining buffered input after the exit line. -/
theorem claim9_exit (interactive : Bool)
    (chdirFn : String → String → Option String) (cwd0 : String)
    (pre post post2 : List (List String)) (tokens : List String)
    (hpre : ∀ l ∈ pre, l[0]? ≠ some "exit")
    (hexit : tokens[0]? = some "exit") :
    (shellMain interactive chdirFn cwd0 (pre ++ tokens :: post)).exitStatus
      = some 0 ∧
    (shellMain interactive chdirFn cwd0 (pre ++ tokens :: post)).processed
      = pre.length + 1 ∧
    shellMain interactive chdirFn cwd0 (pre ++ tokens :: post)
      = shellMain interactive chdirFn cwd0 (pre ++ tokens :: post2) := by
  have hex : lookup tokens[0]? = 1 := by rw [hexit]; decide
  have hpre2 : ∀ l ∈ pre, lookup l[0]? ≠ 1 := fun l hl h1 =>
    hpre l hl ((lookup_eq_one_iff l[0]?).mp h1)
  have h := runLoop_exit_append interactive chdirFn tokens post post2 hex pre
    0 cwd0 hpre2
  refine ⟨?_, ?_, ?_⟩
  · simpa [shellMain] using h.1
  · simpa [shellMain] using h.2.1
  · simp [shellMain, h.2.2]

/-- Witness for claim C9: "pwd" then "exit" then an unreached "echo" line,
compared against the same input with nothing after the exit line. -/
theorem claim9_witness :
    (["exit"] : List String)[0]? = some "exit" ∧
    (shellMain true chdirNone "/" ([["pwd"]] ++ ["exit"] :: [["echo"]])).exitStatus
      = some 0 ∧
    (shellMain true chdirNone "/" ([["pwd"]] ++ ["exit"] :: [["echo"]])).processed
      = 2 ∧
    shellMain true chdirNone "/" ([["pwd"]] ++ ["exit"] :: [["echo"]])
      = shellMain true chdirNone "/" ([["pwd"]] ++ ["exit"] :: []) := by
  have h := claim9_exit true chdirNone "/" [["pwd"]] [["echo"]] [] ["exit"]
    (by decide) rfl
  exact ⟨rfl, h.1, h.2.1, h.2.2⟩

end HwShell
